import Mathlib

/-!
Verification of the AudioStrike music node's trust and synchronization core:
a shallow embedding of `src/internal/lightningnode.go` (publication sign /
verify protocol) and `src/cmd/austk/austk.go` (sync loop, mp3 ingestion,
startup flow), over the protobuf data model of `src/pkg/art/art.proto`.

Bytes are modelled as `List Nat`; Go's `(value, error)` return pairs are
modelled as `Option value × Option GoError` (so `(none, none)` is a
representable outcome, exactly as `return nil, nil` is in Go); external
collaborators (the lnd Signing Oracle, the Content Store) are modelled as
explicit records of result-producing functions supplied by the caller.
-/

namespace Audiostrike


/-- Errors returned by Go functions; `artNotFound` models the sentinel
`ErrArtNotFound`, `msg s` models `fmt.Errorf(s)` and other errors. -/
inductive GoError where
  | artNotFound
  | msg (s : String)
deriving DecidableEq, Repr

/-- Artist message from `art.proto`: `{artist_id, name, pubkey}`. -/
structure Artist where
  artistId : String
  name : String
  pubkey : String
deriving DecidableEq, Repr

/-- Album message from `art.proto`:
`{artist_id, artist_album_id, title, repeated artist_track_id}`. -/
structure Album where
  artistId : String
  artistAlbumId : String
  title : String
  artistTrackIds : List String
deriving DecidableEq, Repr

/-- Track message from `art.proto`:
`{artist_id, artist_album_id, artist_track_id, album_track_number, title}`. -/
structure Track where
  artistId : String
  artistAlbumId : String
  artistTrackId : String
  albumTrackNumber : Nat
  title : String
deriving DecidableEq, Repr

/-- Peer message from `art.proto`: `{pubkey, host, port}`. -/
structure Peer where
  pubkey : String
  host : String
  port : Nat
deriving DecidableEq, Repr

/-- ArtResources message from `art.proto`: the catalog snapshot,
`{repeated artists, albums, tracks, peers}`. -/
structure ArtResources where
  artists : List Artist
  albums : List Album
  tracks : List Track
  peers : List Peer
deriving DecidableEq, Repr

/-- ArtistPublication message from `art.proto`: the signed envelope
`{artist, signature, serialized_art_resources}`. -/
structure ArtistPublication where
  artist : Artist
  signature : String
  serializedArtResources : List Nat
deriving DecidableEq, Repr

/-! ### Deterministic serialization (model of `proto.Marshal` / `proto.Unmarshal`)

The protobuf library is an external collaborator (spec §6 "wire encoding":
a deterministic, versioned binary serialization). We model it with an
executable length-prefixed encoding over `List Nat` together with its
decoder, and prove the decode-of-encode round trip the claims rely on. -/

/-- Encode a natural number field as a single model byte. -/
def encNat (n : Nat) : List Nat := [n]

/-- Decode a natural number field. -/
def decNat : List Nat → Option (Nat × List Nat)
  | [] => none
  | n :: rest => some (n, rest)

/-- Encode a string field: length prefix, then the character codes. -/
def encString (s : String) : List Nat :=
  s.length :: s.data.map Char.toNat

/-- Decode a string field. -/
def decString : List Nat → Option (String × List Nat)
  | [] => none
  | n :: rest =>
    if n ≤ rest.length then
      some (String.mk ((rest.take n).map Char.ofNat), rest.drop n)
    else
      none

/-- Encode a repeated field: count prefix, then each element's encoding. -/
def encList (enc : α → List Nat) (xs : List α) : List Nat :=
  xs.length :: (xs.map enc).flatten

/-- Decode `k` consecutive elements of a repeated field. -/
def decListCount (dec : List Nat → Option (α × List Nat)) :
    Nat → List Nat → Option (List α × List Nat)
  | 0, input => some ([], input)
  | k + 1, input =>
    match dec input with
    | none => none
    | some (a, rest) =>
      match decListCount dec k rest with
      | none => none
      | some (as, rest2) => some (a :: as, rest2)

/-- Decode a repeated field: read the count prefix, then that many elements. -/
def decList (dec : List Nat → Option (α × List Nat)) :
    List Nat → Option (List α × List Nat)
  | [] => none
  | n :: rest => decListCount dec n rest

/-- Encode an Artist message. -/
def encArtist (a : Artist) : List Nat :=
  encString a.artistId ++ encString a.name ++ encString a.pubkey

/-- Decode an Artist message. -/
def decArtist (input : List Nat) : Option (Artist × List Nat) := do
  let (artistId, r1) ← decString input
  let (name, r2) ← decString r1
  let (pubkey, r3) ← decString r2
  some (⟨artistId, name, pubkey⟩, r3)

/-- Encode an Album message. -/
def encAlbum (al : Album) : List Nat :=
  encString al.artistId ++ encString al.artistAlbumId ++ encString al.title ++
    encList encString al.artistTrackIds

/-- Decode an Album message. -/
def decAlbum (input : List Nat) : Option (Album × List Nat) := do
  let (artistId, r1) ← decString input
  let (artistAlbumId, r2) ← decString r1
  let (title, r3) ← decString r2
  let (trackIds, r4) ← decList decString r3
  some (⟨artistId, artistAlbumId, title, trackIds⟩, r4)

/-- Encode a Track message. -/
def encTrack (tr : Track) : List Nat :=
  encString tr.artistId ++ encString tr.artistAlbumId ++
    encString tr.artistTrackId ++ encNat tr.albumTrackNumber ++ encString tr.title

/-- Decode a Track message. -/
def decTrack (input : List Nat) : Option (Track × List Nat) := do
  let (artistId, r1) ← decString input
  let (artistAlbumId, r2) ← decString r1
  let (artistTrackId, r3) ← decString r2
  let (albumTrackNumber, r4) ← decNat r3
  let (title, r5) ← decString r4
  some (⟨artistId, artistAlbumId, artistTrackId, albumTrackNumber, title⟩, r5)

/-- Encode a Peer message. -/
def encPeer (p : Peer) : List Nat :=
  encString p.pubkey ++ encString p.host ++ encNat p.port

/-- Decode a Peer message. -/
def decPeer (input : List Nat) : Option (Peer × List Nat) := do
  let (pubkey, r1) ← decString input
  let (host, r2) ← decString r1
  let (port, r3) ← decNat r2
  some (⟨pubkey, host, port⟩, r3)

/-- Model of `proto.Marshal` on an ArtResources message: the deterministic
serialization of the four repeated fields in field order. -/
def protoMarshal (r : ArtResources) : List Nat :=
  encList encArtist r.artists ++ encList encAlbum r.albums ++
    encList encTrack r.tracks ++ encList encPeer r.peers

/-- Model of `proto.Unmarshal` into an ArtResources message: decodes the four
repeated fields and requires the input to be fully consumed. -/
def protoUnmarshal (bytes : List Nat) : Except GoError ArtResources :=
  match decList decArtist bytes with
  | none => .error (.msg "Unmarshal ArtResources: bad artists")
  | some (artists, r1) =>
    match decList decAlbum r1 with
    | none => .error (.msg "Unmarshal ArtResources: bad albums")
    | some (albums, r2) =>
      match decList decTrack r2 with
      | none => .error (.msg "Unmarshal ArtResources: bad tracks")
      | some (tracks, r3) =>
        match decList decPeer r3 with
        | none => .error (.msg "Unmarshal ArtResources: bad peers")
        | some (peers, r4) =>
          match r4 with
          | [] => .ok ⟨artists, albums, tracks, peers⟩
          | _ :: _ => .error (.msg "Unmarshal ArtResources: trailing bytes")

/-! ### The Signing Oracle and the Publication Protocol
(`src/internal/lightningnode.go`) -/

/-- Response of the oracle's VerifyMessage: `{valid, pubkey}`, the recovered
signer pubkey and whether the signature is valid (lnrpc.VerifyMessageResponse). -/
structure VerifyMessageResponse where
  valid : Bool
  pubkey : String
deriving DecidableEq, Repr

/-- The Signing Oracle interface consumed (lnrpc.LightningClient as used here):
`SignMessage` and `VerifyMessage`, each of which may fail with a transport
error. -/
structure SigningOracle where
  signMessage : List Nat → Except GoError String
  verifyMessage : List Nat → String → Except GoError VerifyMessageResponse

/-- Embedding of the `LightningNode` struct: the oracle client and the
publishing artist. -/
structure LightningNode where
  lightningClient : SigningOracle
  publishingArtist : Artist

/-- Embedding of `LightningNode.Sign` (lightningnode.go lines 106-129):
marshal the resources, ask the oracle to sign the marshaled bytes, and return
the envelope `{artist: publishingArtist, signature, serialized_art_resources}`.
`proto.Marshal` is modelled total, so its error branch (lines 111-114) is dead
in the model. -/
def Sign (node : LightningNode) (resources : ArtResources) :
    Option ArtistPublication × Option GoError :=
  let marshaledResources := protoMarshal resources
  match node.lightningClient.signMessage marshaledResources with
  | .error e => (none, some e)
  | .ok publicationSignature =>
    (some ⟨node.publishingArtist, publicationSignature, marshaledResources⟩, none)

/-- Embedding of `LightningNode.ValidatePublication` (lightningnode.go lines
131-161): VerifyMessage over the serialized bytes and signature; on transport
error return the error; if the signature is invalid return the
"Signature failed verification" error; if the recovered pubkey differs from
`publication.artist.pubkey` the source executes `return nil, err` where `err`
is necessarily nil at that point (line 151), so the mismatch branch returns
neither a snapshot nor an error; otherwise unmarshal and return the resources. -/
def ValidatePublication (node : LightningNode) (publication : ArtistPublication) :
    Option ArtResources × Option GoError :=
  match node.lightningClient.verifyMessage publication.serializedArtResources
      publication.signature with
  | .error e => (none, some e)
  | .ok verifyMessageResponse =>
    if !verifyMessageResponse.valid then
      (none, some (.msg "Signature failed verification"))
    else if verifyMessageResponse.pubkey ≠ publication.artist.pubkey then
      (none, none)
    else
      match protoUnmarshal publication.serializedArtResources with
      | .error e => (none, some e)
      | .ok artResources => (some artResources, none)

/-- External calls made by `ValidatePublication`, in order: the oracle
VerifyMessage call and the `proto.Unmarshal` of the untrusted bytes. -/
inductive ValidateEvent where
  | verifyCalled (msg : List Nat) (sig : String)
  | unmarshalCalled (msg : List Nat)
deriving DecidableEq, Repr

/-- Instrumented trace of `ValidatePublication`: the same control flow
(lightningnode.go lines 131-161), recording each external call it performs.
VerifyMessage is always called first; `proto.Unmarshal` is reached only in the
final branch. -/
def validatePublicationTrace (node : LightningNode)
    (publication : ArtistPublication) : List ValidateEvent :=
  ValidateEvent.verifyCalled publication.serializedArtResources
      publication.signature ::
    match node.lightningClient.verifyMessage publication.serializedArtResources
        publication.signature with
    | .error _ => []
    | .ok verifyMessageResponse =>
      if !verifyMessageResponse.valid then []
      else if verifyMessageResponse.pubkey ≠ publication.artist.pubkey then []
      else [ValidateEvent.unmarshalCalled publication.serializedArtResources]

/-! ### A concrete honest Signing Oracle

Used to witness the protocol theorems and to exhibit the identity-mismatch
behavior on a concrete input. Signatures are strings that determine the key
and the exact signed bytes, via an injective unary encoding. -/

/-- Unary encoding of a byte list into characters: each byte n becomes n
copies of 'i' followed by one 'o'. -/
def unaryEnc : List Nat → List Char
  | [] => []
  | n :: rest => List.replicate n 'i' ++ 'o' :: unaryEnc rest

/-- Decoder for `unaryEnc`, accumulating the count of the current element. -/
def unaryDecAux : List Char → Nat → Option (List Nat)
  | [], 0 => some []
  | [], _ + 1 => none
  | c :: t, k =>
    if c = 'i' then unaryDecAux t (k + 1)
    else if c = 'o' then (unaryDecAux t 0).map (k :: ·)
    else none

/-- Signature produced by an honest Signing Oracle holding `key` over `msg`:
a string determined by the key and the exact message bytes. -/
def mkSig (key : String) (msg : List Nat) : String :=
  key ++ String.mk ('|' :: unaryEnc msg)

/-- Modelled from the spec: an honest Signing Oracle holding the identity key
`key` (spec §6: `Sign(bytes) -> signature`,
`Verify(bytes, signature) -> (pubkey, valid)`). It signs any message, reports
a signature valid exactly when it is this oracle's signature over exactly
those bytes, and reports its own pubkey as the recovered signer. -/
def honestOracle (key : String) : SigningOracle where
  signMessage := fun msg => .ok (mkSig key msg)
  verifyMessage := fun msg sig => .ok ⟨decide (sig = mkSig key msg), key⟩

/-! ### Concrete fixtures shared by witnesses -/

/-- Empty catalog snapshot used as a small concrete input. -/
def emptyResources : ArtResources := ⟨[], [], [], []⟩

/-- Concrete artist whose claimed identity key is "K". -/
def aliceK : Artist := ⟨"aliceinchains", "Alice in Chains", "K"⟩

/-- Concrete node: honest oracle holding key "K", publishing artist `aliceK`. -/
def nodeK : LightningNode := ⟨honestOracle "K", aliceK⟩

/-- Concrete envelope signed by key "K" over the empty snapshot. -/
def publicationK : ArtistPublication :=
  ⟨aliceK, mkSig "K" (protoMarshal emptyResources), protoMarshal emptyResources⟩

/-- Concrete impersonation envelope: a valid signature from key "K2" but an
artist field claiming pubkey "K1". -/
def impersonationPublication : ArtistPublication :=
  ⟨⟨"victim", "Victim", "K1"⟩, mkSig "K2" (protoMarshal emptyResources),
    protoMarshal emptyResources⟩

/-- Concrete tampered envelope: signature by "K" over the marshaled empty
snapshot, but `serializedArtResources` altered after signing. -/
def tamperedPublication : ArtistPublication :=
  ⟨aliceK, mkSig "K" (protoMarshal emptyResources),
    protoMarshal emptyResources ++ [7]⟩

/-! ### The peer sync loop (`src/cmd/austk/austk.go`, main, lines 133-168) -/

/-- Configuration fields of `Config` used by the embedded code paths. -/
structure Config where
  artistId : String
  pubkey : String
  restHost : String
  addMp3Filename : String
  runAsDaemon : Bool
  playMp3 : Bool
deriving DecidableEq, Repr

/-- Behavior of the external world for one peer in the sync loop:
`NewClient` fails; or the client is created and `SyncFromPeer` fails
(transport error or publication verification failure); or sync succeeds
returning verified resources. -/
inductive PeerBehavior where
  | newClientError (e : GoError)
  | syncError (e : GoError)
  | syncOk (resources : ArtResources)
deriving DecidableEq, Repr

/-- Whether a peer behavior is a `NewClient` construction failure. -/
def PeerBehavior.isClientError : PeerBehavior → Bool
  | .newClientError _ => true
  | _ => false

/-- Environment of the sync loop: each peer's behavior, and whether playing a
downloaded track fatally fails (`playTracks` calls `log.Fatalf` when a track
file cannot be opened; `DownloadTracks` errors are only logged and do not
affect control flow). -/
structure SyncEnv where
  behavior : Peer → PeerBehavior
  playbackFatal : Peer → Bool

/-- Observable steps of the sync loop. -/
inductive SyncEvent where
  | skippedSelf (p : Peer)
  | clientCreated (p : Peer)
  | syncFailed (p : Peer) (e : GoError)
  | synced (p : Peer)
  | fatalExit (p : Peer)
deriving DecidableEq, Repr

/-- Peer an event refers to. -/
def SyncEvent.peerOf : SyncEvent → Peer
  | .skippedSelf p => p
  | .clientCreated p => p
  | .syncFailed p _ => p
  | .synced p => p
  | .fatalExit p => p

/-- Embedding of the peer sync loop in `main` (austk.go lines 133-168): for
each stored peer, skip it when its pubkey and host equal this node's own
configured pubkey and RestHost; otherwise create a client (`NewClient` failure
calls `log.Fatalf`, terminating the process); then `SyncFromPeer` — on error
the peer is logged and skipped and the loop continues; on success, when
PlayMp3 is set, tracks are downloaded (errors only logged) and played
(`playTracks` terminates the process if a file cannot be opened). Returns the
events of the run and whether the loop ran to completion (`false` means
`log.Fatalf` terminated the process before the remaining peers were synced). -/
def runSyncLoop (cfg : Config) (env : SyncEnv) : List Peer → List SyncEvent × Bool
  | [] => ([], true)
  | peer :: rest =>
    if peer.pubkey = cfg.pubkey ∧ peer.host = cfg.restHost then
      let (evs, ok) := runSyncLoop cfg env rest
      (SyncEvent.skippedSelf peer :: evs, ok)
    else
      match env.behavior peer with
      | .newClientError _ => ([SyncEvent.fatalExit peer], false)
      | .syncError e =>
        let (evs, ok) := runSyncLoop cfg env rest
        (SyncEvent.clientCreated peer :: SyncEvent.syncFailed peer e :: evs, ok)
      | .syncOk _ =>
        if cfg.playMp3 ∧ env.playbackFatal peer then
          ([SyncEvent.clientCreated peer, SyncEvent.synced peer,
            SyncEvent.fatalExit peer], false)
        else
          let (evs, ok) := runSyncLoop cfg env rest
          (SyncEvent.clientCreated peer :: SyncEvent.synced peer :: evs, ok)

/-- Concrete non-self peers and a config for the sync-loop claims. -/
def peer1 : Peer := ⟨"P1", "host1", 1⟩

/-- Second concrete peer. -/
def peer2 : Peer := ⟨"P2", "host2", 2⟩

/-- Concrete peer matching the node's own identity and address below. -/
def selfPeer : Peer := ⟨"K", "selfhost", 9⟩

/-- Concrete config: own pubkey "K", own RestHost "selfhost", no mp3 to add,
not a daemon, not playing. -/
def cfgSync : Config := ⟨"aliceinchains", "K", "selfhost", "", false, false⟩

/-- Environment where creating the client for `peer1` fails and every other
peer syncs fine. -/
def syncEnvA : SyncEnv :=
  ⟨fun p => if p = peer1 then .newClientError (.msg "connection refused")
    else .syncOk emptyResources,
   fun _ => false⟩

/-- Environment where `peer1`'s SyncFromPeer fails (bad publication) and every
other peer syncs fine. -/
def syncEnvB : SyncEnv :=
  ⟨fun p => if p = peer1 then .syncError (.msg "publication failed validation")
    else .syncOk emptyResources,
   fun _ => false⟩

/-! ### mp3 ingestion (`storeMp3File`, austk.go lines 196-298) -/

/-- Modelled from the spec: `NameToID` is repository code not under `src/`
(called at austk.go lines 205 and 237). Spec §3: a Track/Artist id is a
"stable lowercase slug" and "re-deriving it from title text must be
deterministic (case-folded, punctuation-stripped slug)"; art.proto:
"Lowercase id, no spaces, no punctuation, e.g. aliceinchains". Modelled as
keeping letters and digits, lowercased. -/
def NameToID (name : String) : String :=
  String.mk ((name.data.filter fun c => c.isAlpha || c.isDigit).map Char.toLower)

/-- Modelled from the spec: `TitleToHierarchy` is repository code not under
`src/` (called at austk.go line 241 to derive the album slug). Spec §3:
`artist_album_id` is a "slug unique within artist_id"; art.proto: "Lowercase
id, no spaces, no punctuation, unique for artist_id, e.g. dirt". Modelled as
the same case-folded, punctuation-stripped slug. -/
def TitleToHierarchy (title : String) : String :=
  String.mk ((title.data.filter fun c => c.isAlpha || c.isDigit).map Char.toLower)

/-- Model of Go's `filepath.Join` on two components (austk.go line 247):
empty components are dropped, otherwise the components are joined with the
path separator. -/
def pathJoin (a b : String) : String :=
  if a = "" then b else if b = "" then a else a ++ "/" ++ b

/-- Tag data of an opened mp3 file, as read by `ArtistName()`, `Title()` and
`AlbumTitle()` (the `album` field is `none` when `AlbumTitle` reports the
file is not in an album). -/
structure Mp3File where
  artistName : String
  title : String
  album : Option String
deriving DecidableEq, Repr

/-- Results supplied by the Content Store and the other collaborators for one
`storeMp3File` run: the artist lookup, each store operation's outcome, the
payload read, the collected resources, and the signing step. -/
structure StoreBackend where
  artistResult : Option Artist × Option GoError
  setArtistPubkeyResult : Option GoError
  storeArtistResult : Option GoError
  storeAlbumResult : Album → Option GoError
  storeTrackResult : Track → Option GoError
  readBytesResult : Except GoError (List Nat)
  storeTrackPayloadResult : Track → List Nat → Option GoError
  collectResourcesResult : Except GoError ArtResources
  signResult : ArtResources → Except GoError ArtistPublication
  storePublicationResult : ArtistPublication → Option GoError

/-- Content Store calls made during `storeMp3File`, each with the result the
store returned for it. -/
inductive StoreCall where
  | storeArtist (a : Artist) (r : Option GoError)
  | setArtistPubkey (a : Artist) (r : Option GoError)
  | storeAlbum (al : Album) (r : Option GoError)
  | storeTrack (t : Track) (r : Option GoError)
  | storeTrackPayload (t : Track) (r : Option GoError)
  | storePublication (r : Option GoError)
deriving DecidableEq, Repr

/-- Embedding of the second half of `storeMp3File` (austk.go lines 253-297):
build the track record from the derived ids, call `StoreTrack`, then
`ReadBytes`, `StoreTrackPayload`, `CollectResources`, `Sign` and
`StorePublication`, each aborting on error; on full success return the mp3
with no error. `calls1` are the Content Store calls already made. -/
def storeTrackAndPublish (mp3 : Mp3File) (store : StoreBackend)
    (calls1 : List StoreCall) (artistID artistAlbumID artistTrackID : String) :
    List StoreCall × Option Mp3File × Option GoError :=
  let track : Track := ⟨artistID, artistAlbumID, artistTrackID, 0, mp3.title⟩
  let calls2 := calls1
    ++ [StoreCall.storeTrack track (store.storeTrackResult track)]
  match store.storeTrackResult track with
  | some e => (calls2, none, some e)
  | none =>
    match store.readBytesResult with
    | .error e => (calls2, none, some e)
    | .ok trackPayload =>
      let calls3 := calls2 ++ [StoreCall.storeTrackPayload track
        (store.storeTrackPayloadResult track trackPayload)]
      match store.storeTrackPayloadResult track trackPayload with
      | some e => (calls3, none, some e)
      | none =>
        match store.collectResourcesResult with
        | .error e => (calls3, none, some e)
        | .ok resources =>
          match store.signResult resources with
          | .error e => (calls3, none, some e)
          | .ok publication =>
            let calls4 := calls3 ++ [StoreCall.storePublication
              (store.storePublicationResult publication)]
            match store.storePublicationResult publication with
            | some e => (calls4, none, some e)
            | none => (calls4, some mp3, none)

/-- Embedding of `storeMp3File` (austk.go lines 196-298), instrumented with
the list of Content Store calls it performs. Control flow follows the source:
a hard artist-lookup error aborts; an unknown artist is stored (via
`setArtistPubkey` when it is the configured artist); when the tags name an
album, `StoreAlbum` is called but its error is assigned to `err` and never
checked (source line 242), and the track id is `filepath.Join(albumID,
trackTitleID)`; the rest of the run is `storeTrackAndPublish` above.
Returns the calls made, the returned mp3 and the returned error. -/
def storeMp3File (cfg : Config) (mp3 : Mp3File) (store : StoreBackend) :
    List StoreCall × Option Mp3File × Option GoError :=
  let artistName := mp3.artistName
  let artistID := NameToID artistName
  let (artistOpt, lookupErr) := store.artistResult
  if lookupErr ≠ none ∧ lookupErr ≠ some GoError.artNotFound then
    ([], none, lookupErr)
  else
    let newArtist : Artist := ⟨artistID, artistName, ""⟩
    let artistErr : Option GoError :=
      match artistOpt with
      | some _ => none
      | none =>
        if artistID = cfg.artistId then store.setArtistPubkeyResult
        else store.storeArtistResult
    let calls0 : List StoreCall :=
      match artistOpt with
      | some _ => []
      | none =>
        if artistID = cfg.artistId then
          [StoreCall.setArtistPubkey newArtist store.setArtistPubkeyResult]
        else
          [StoreCall.storeArtist newArtist store.storeArtistResult]
    match artistErr with
    | some e => (calls0, none, some e)
    | none =>
      let trackTitle := mp3.title
      let trackTitleID := NameToID trackTitle
      let album : Album :=
        ⟨artistID, TitleToHierarchy (mp3.album.getD ""), mp3.album.getD "", []⟩
      let calls1 : List StoreCall :=
        match mp3.album with
        | some _ =>
          calls0 ++ [StoreCall.storeAlbum album (store.storeAlbumResult album)]
        | none => calls0
      let artistAlbumID : String :=
        match mp3.album with
        | some albumTitle => TitleToHierarchy albumTitle
        | none => ""
      let artistTrackID : String :=
        match mp3.album with
        | some albumTitle => pathJoin (TitleToHierarchy albumTitle) trackTitleID
        | none => trackTitleID
      storeTrackAndPublish mp3 store calls1 artistID artistAlbumID artistTrackID

/-- Concrete mp3 with album tags, matching the spec's example scenario. -/
def dirtWould : Mp3File := ⟨"Alice in Chains", "Would?", some "Dirt"⟩

/-- Concrete store backend where every operation succeeds except
`StoreAlbum`, which fails. -/
def albumFailingStore : StoreBackend :=
  ⟨(some aliceK, none), none, none,
    fun _ => some (.msg "db down"),
    fun _ => none,
    .ok [1, 2, 3],
    fun _ _ => none,
    .ok emptyResources,
    fun r => .ok ⟨aliceK, "s", protoMarshal r⟩,
    fun _ => none⟩

/-- Concrete store backend where every operation succeeds. -/
def happyStore : StoreBackend :=
  ⟨(some aliceK, none), none, none,
    fun _ => none,
    fun _ => none,
    .ok [1, 2, 3],
    fun _ _ => none,
    .ok emptyResources,
    fun r => .ok ⟨aliceK, "s", protoMarshal r⟩,
    fun _ => none⟩

/-! ### Startup flow after `injectPublisher` (austk.go lines 72-81) -/

/-- Modelled from the spec: the server value returned by `injectPublisher`
(repository code not under `src/`); `main` calls its `Artist()` method, which
dereferences the server, so the method is total on a non-nil server and the
nil case is distinguished by the caller model below. -/
structure AustkServer where
  artist : Option Artist
deriving DecidableEq, Repr

/-- Outcome of the startup step of `main` right after `injectPublisher`. -/
inductive InjectOutcome where
  | fatalExit
  | nilDereference
  | continued (injectedArtist : Option Artist)
deriving DecidableEq, Repr

/-- Embedding of `main` lines 72-81: when `injectPublisher` fails and an mp3
add or daemon mode is configured, `main` exits via `log.Fatalf`; otherwise a
failure is only logged and execution continues to `austkServer.Artist()`,
which dereferences the returned server: a nil server crashes, a non-nil
server yields its artist. -/
def mainAfterInject (cfg : Config)
    (injectResult : Option AustkServer × Option GoError) : InjectOutcome :=
  let (serverOpt, errOpt) := injectResult
  match errOpt with
  | some _ =>
    if cfg.addMp3Filename ≠ "" ∨ cfg.runAsDaemon = true then
      .fatalExit
    else
      match serverOpt with
      | none => .nilDereference
      | some s => .continued s.artist
  | none =>
    match serverOpt with
    | none => .nilDereference
    | some s => .continued s.artist


theorem decNat_encNat (n : Nat) (t : List Nat) :
    decNat (encNat n ++ t) = some (n, t) := rfl

theorem decString_encString (s : String) (t : List Nat) :
    decString (encString s ++ t) = some (s, t) := by
  have hlen : s.length = (s.data.map Char.toNat).length := by
    rw [List.length_map]; rfl
  simp only [encString, List.cons_append, decString]
  rw [hlen, if_pos (by simp), List.take_left, List.drop_left]
  simp [List.map_map, Function.comp_def, Char.ofNat_toNat]

theorem decListCount_encList (dec : List Nat → Option (α × List Nat))
    (enc : α → List Nat) (hdec : ∀ a t, dec (enc a ++ t) = some (a, t)) :
    ∀ (xs : List α) (t : List Nat),
      decListCount dec xs.length ((xs.map enc).flatten ++ t) = some (xs, t)
  | [], _ => rfl
  | x :: xs, t => by
    simp only [List.map_cons, List.flatten_cons, List.length_cons,
      List.append_assoc, decListCount]
    rw [hdec]
    dsimp only
    rw [decListCount_encList dec enc hdec xs t]

theorem decList_encList (dec : List Nat → Option (α × List Nat))
    (enc : α → List Nat) (hdec : ∀ a t, dec (enc a ++ t) = some (a, t))
    (xs : List α) (t : List Nat) :
    decList dec (encList enc xs ++ t) = some (xs, t) := by
  simp only [encList, List.cons_append, decList]
  exact decListCount_encList dec enc hdec xs t

theorem decArtist_encArtist (a : Artist) (t : List Nat) :
    decArtist (encArtist a ++ t) = some (a, t) := by
  simp [encArtist, decArtist, List.append_assoc, decString_encString]

theorem decAlbum_encAlbum (al : Album) (t : List Nat) :
    decAlbum (encAlbum al ++ t) = some (al, t) := by
  simp [encAlbum, decAlbum, List.append_assoc, decString_encString,
    decList_encList decString encString decString_encString]

theorem decTrack_encTrack (tr : Track) (t : List Nat) :
    decTrack (encTrack tr ++ t) = some (tr, t) := by
  simp [encTrack, decTrack, List.append_assoc, decString_encString,
    decNat_encNat]

theorem decPeer_encPeer (p : Peer) (t : List Nat) :
    decPeer (encPeer p ++ t) = some (p, t) := by
  simp [encPeer, decPeer, List.append_assoc, decString_encString, decNat_encNat]

/-- Decode-of-encode round trip for the snapshot serialization. -/
theorem protoUnmarshal_protoMarshal (r : ArtResources) :
    protoUnmarshal (protoMarshal r) = .ok r := by
  have h1 := decList_encList decArtist encArtist decArtist_encArtist
  have h2 := decList_encList decAlbum encAlbum decAlbum_encAlbum
  have h3 := decList_encList decTrack encTrack decTrack_encTrack
  have h4 := decList_encList decPeer encPeer decPeer_encPeer
  have h4n : decList decPeer (encList encPeer r.peers) = some (r.peers, []) := by
    have := h4 r.peers []
    simpa using this
  simp only [protoMarshal, protoUnmarshal, List.append_assoc, h1, h2, h3, h4n]

theorem unaryDecAux_replicate (n k : Nat) (t : List Char) :
    unaryDecAux (List.replicate n 'i' ++ t) k = unaryDecAux t (k + n) := by
  induction n generalizing k with
  | zero => simp
  | succ m ih =>
    simp only [List.replicate_succ, List.cons_append]
    have hstep : unaryDecAux ('i' :: (List.replicate m 'i' ++ t)) k
        = unaryDecAux (List.replicate m 'i' ++ t) (k + 1) := by
      simp [unaryDecAux]
    rw [hstep, ih]
    congr 1
    omega

theorem unaryDecAux_unaryEnc (msg : List Nat) :
    unaryDecAux (unaryEnc msg) 0 = some msg := by
  induction msg with
  | nil => rfl
  | cons n rest ih =>
    simp only [unaryEnc, unaryDecAux_replicate, Nat.zero_add]
    simp [unaryDecAux, ih]

theorem unaryEnc_injective : Function.Injective unaryEnc := by
  intro a b h
  have ha := unaryDecAux_unaryEnc a
  have hb := unaryDecAux_unaryEnc b
  rw [h, hb] at ha
  exact (Option.some.injEq _ _ ▸ ha).symm

theorem mkSig_inj_msg (key : String) {a b : List Nat}
    (h : mkSig key a = mkSig key b) : a = b := by
  have hdata := congrArg String.data h
  simp only [mkSig, String.data_append] at hdata
  have hmk := List.append_cancel_left hdata
  have : ('|' :: unaryEnc a) = ('|' :: unaryEnc b) := by
    simpa using hmk
  exact unaryEnc_injective (List.cons_injective this)

/-! ### Claims about the Publication Protocol -/

/-- C1: evaluating `ValidatePublication` on a publication whose signature is
valid but made by key "K2" while the envelope claims pubkey "K1": the source's
identity-mismatch branch executes `return nil, err` with `err` nil
(lightningnode.go line 151), so the call returns no snapshot and NO error,
rather than failing with an IdentityMismatch error as the claim states. -/
theorem C1_identity_mismatch_returns_no_error :
    ValidatePublication ⟨honestOracle "K2", aliceK⟩ impersonationPublication
      = (none, none) := by decide

/-- C2: whenever the oracle's Verify call errors or reports the signature
invalid over `serialized_art_resources`, `ValidatePublication` returns no
snapshot and fails with an error (lightningnode.go lines 139-147). The
witness instantiates this with bytes altered after signing, which the honest
oracle reports invalid. -/
theorem C2_verify_error_or_invalid_fails (node : LightningNode)
    (publication : ArtistPublication)
    (h : (∃ e, node.lightningClient.verifyMessage
            publication.serializedArtResources publication.signature = .error e)
       ∨ (∃ resp, node.lightningClient.verifyMessage
            publication.serializedArtResources publication.signature = .ok resp
            ∧ resp.valid = false)) :
    (ValidatePublication node publication).1 = none ∧
      (ValidatePublication node publication).2.isSome = true := by
  obtain ⟨e, he⟩ | ⟨resp, hresp, hvalid⟩ := h
  · simp [ValidatePublication, he]
  · simp [ValidatePublication, hresp, hvalid]

/-- C2 witness: the tampered envelope (bytes altered after signing) makes the
honest oracle report the signature invalid, and validation fails with an
error and no snapshot. -/
theorem C2_witness :
    (ValidatePublication nodeK tamperedPublication).1 = none ∧
      (ValidatePublication nodeK tamperedPublication).2.isSome = true :=
  C2_verify_error_or_invalid_fails nodeK tamperedPublication
    (Or.inr ⟨⟨false, "K"⟩, rfl, rfl⟩)

/-- C3: `ValidatePublication` calls `proto.Unmarshal` on the untrusted bytes
only in the branch where the oracle verified the signature as valid and the
recovered pubkey equals the artist's claimed pubkey; a decoded snapshot is
returned only when additionally the deserialization itself succeeds
(lightningnode.go lines 131-161). -/
theorem C3_unmarshal_only_after_checks (node : LightningNode)
    (publication : ArtistPublication) :
    (∀ m, ValidateEvent.unmarshalCalled m
        ∈ validatePublicationTrace node publication →
      ∃ resp, node.lightningClient.verifyMessage
          publication.serializedArtResources publication.signature = .ok resp
        ∧ resp.valid = true ∧ resp.pubkey = publication.artist.pubkey) ∧
    (∀ r, (ValidatePublication node publication).1 = some r →
      ∃ resp, node.lightningClient.verifyMessage
          publication.serializedArtResources publication.signature = .ok resp
        ∧ resp.valid = true ∧ resp.pubkey = publication.artist.pubkey
        ∧ protoUnmarshal publication.serializedArtResources = .ok r) := by
  rcases hv : node.lightningClient.verifyMessage
      publication.serializedArtResources publication.signature with e | resp
  · constructor
    · intro m hm
      simp [validatePublicationTrace, hv] at hm
    · intro r hr
      simp [ValidatePublication, hv] at hr
  · rcases hvalid : resp.valid with _ | _
    · constructor
      · intro m hm
        simp [validatePublicationTrace, hv, hvalid] at hm
      · intro r hr
        simp [ValidatePublication, hv, hvalid] at hr
    · by_cases hpk : resp.pubkey = publication.artist.pubkey
      · constructor
        · intro m hm
          exact ⟨resp, rfl, hvalid, hpk⟩
        · intro r hr
          refine ⟨resp, rfl, hvalid, hpk, ?_⟩
          rcases hu : protoUnmarshal publication.serializedArtResources with e | r2
          · simp [ValidatePublication, hv, hvalid, hpk, hu] at hr
          · simp [ValidatePublication, hv, hvalid, hpk, hu] at hr
            rw [hr]
      · constructor
        · intro m hm
          simp [validatePublicationTrace, hv, hvalid, hpk] at hm
        · intro r hr
          simp [ValidatePublication, hv, hvalid, hpk] at hr

/-- C3 witness: on the honestly signed concrete envelope, the unmarshal call
occurs in the trace and the theorem yields the passed checks; the snapshot is
returned and the theorem yields all three checks. -/
theorem C3_witness :
    (∃ resp, (nodeK).lightningClient.verifyMessage
        publicationK.serializedArtResources publicationK.signature = .ok resp
      ∧ resp.valid = true ∧ resp.pubkey = publicationK.artist.pubkey) ∧
    (∃ resp, (nodeK).lightningClient.verifyMessage
        publicationK.serializedArtResources publicationK.signature = .ok resp
      ∧ resp.valid = true ∧ resp.pubkey = publicationK.artist.pubkey
      ∧ protoUnmarshal publicationK.serializedArtResources
          = .ok emptyResources) :=
  ⟨(C3_unmarshal_only_after_checks nodeK publicationK).1
      (protoMarshal emptyResources) (by decide),
   (C3_unmarshal_only_after_checks nodeK publicationK).2
      emptyResources (by decide)⟩

/-- C4: when the oracle's SignMessage succeeds over the single marshaled byte
sequence, `Sign` returns the envelope whose `serialized_art_resources` is
exactly that byte sequence, whose signature is the oracle's signature over
those bytes, and whose artist is the node's publishing artist
(lightningnode.go lines 106-129). -/
theorem C4_sign_builds_exact_envelope (node : LightningNode)
    (resources : ArtResources) (sig : String)
    (h : node.lightningClient.signMessage (protoMarshal resources) = .ok sig) :
    Sign node resources
      = (some ⟨node.publishingArtist, sig, protoMarshal resources⟩, none) := by
  simp [Sign, h]

/-- C4 witness: the honest oracle signs the empty snapshot and `Sign` returns
exactly the expected envelope. -/
theorem C4_witness :
    Sign nodeK emptyResources
      = (some ⟨nodeK.publishingArtist, mkSig "K" (protoMarshal emptyResources),
          protoMarshal emptyResources⟩, none) :=
  C4_sign_builds_exact_envelope nodeK emptyResources
    (mkSig "K" (protoMarshal emptyResources)) rfl

/-- C5: for every snapshot and node whose oracle signs successfully, verifies
its own signature as valid, and reports the publishing artist's pubkey as the
signer, `ValidatePublication` after `Sign` returns the original snapshot. -/
theorem C5_round_trip (node : LightningNode) (resources : ArtResources)
    (sig : String)
    (hsign : node.lightningClient.signMessage (protoMarshal resources) = .ok sig)
    (hverify : node.lightningClient.verifyMessage (protoMarshal resources) sig
        = .ok ⟨true, node.publishingArtist.pubkey⟩) :
    ∃ publication, Sign node resources = (some publication, none) ∧
      ValidatePublication node publication = (some resources, none) := by
  refine ⟨⟨node.publishingArtist, sig, protoMarshal resources⟩,
    by simp [Sign, hsign], ?_⟩
  simp [ValidatePublication, hverify, protoUnmarshal_protoMarshal]

/-- C5 witness: the round trip through the honest oracle on the empty
snapshot returns the original snapshot. -/
theorem C5_witness :
    ∃ publication, Sign nodeK emptyResources = (some publication, none) ∧
      ValidatePublication nodeK publication = (some emptyResources, none) :=
  C5_round_trip nodeK emptyResources (mkSig "K" (protoMarshal emptyResources))
    rfl rfl

/-- C6 counterexample: with two configured peers where creating the client
connection to the first fails (an unreachable peer), the loop calls
`log.Fatalf` (austk.go line 143), terminating the process: the run is aborted
and produces no event at all for the second peer, contradicting the claim that
a failure arising from one peer never aborts the sync of the remaining
peers. -/
theorem C6_counterexample :
    runSyncLoop cfgSync syncEnvA [peer1, peer2]
      = ([SyncEvent.fatalExit peer1], false) := by decide

/-- C6 (amended): a `SyncFromPeer` failure (transport error during the sync
call or a publication failing verification) is logged and skipped and the
loop continues with the remaining peers; but a `NewClient` construction
failure terminates the whole process. Formally: when no peer's `NewClient`
fails (and playback does not fatally interrupt), the loop runs to completion,
every listed peer is reached, and every non-self peer whose `SyncFromPeer`
fails gets its failure event while the loop still completes. -/
theorem C6_amended_sync_failures_isolated (cfg : Config) (env : SyncEnv)
    (peers : List Peer)
    (hclient : ∀ p ∈ peers, (env.behavior p).isClientError = false)
    (hplay : ∀ p ∈ peers, ¬(cfg.playMp3 = true ∧ env.playbackFatal p = true)) :
    (runSyncLoop cfg env peers).2 = true ∧
      (∀ p ∈ peers, ∃ ev ∈ (runSyncLoop cfg env peers).1, ev.peerOf = p) ∧
      (∀ p ∈ peers, ∀ e, env.behavior p = .syncError e →
        ¬(p.pubkey = cfg.pubkey ∧ p.host = cfg.restHost) →
        SyncEvent.syncFailed p e ∈ (runSyncLoop cfg env peers).1) := by
  induction peers with
  | nil => simp [runSyncLoop]
  | cons q rest ih =>
    have hq := hclient q (List.mem_cons_self q rest)
    obtain ⟨ih1, ih2, ih3⟩ := ih (fun p hp => hclient p (List.mem_cons_of_mem q hp))
      (fun p hp => hplay p (List.mem_cons_of_mem q hp))
    rcases hrest : runSyncLoop cfg env rest with ⟨evs, ok⟩
    rw [hrest] at ih1 ih2 ih3
    by_cases hself : q.pubkey = cfg.pubkey ∧ q.host = cfg.restHost
    · rw [show runSyncLoop cfg env (q :: rest)
          = (SyncEvent.skippedSelf q :: evs, ok) from by
        simp [runSyncLoop, hself, hrest]]
      refine ⟨ih1, ?_, ?_⟩
      · intro p hp
        rcases List.mem_cons.mp hp with rfl | hp'
        · exact ⟨SyncEvent.skippedSelf p, List.mem_cons_self _ _, rfl⟩
        · obtain ⟨ev, hev, hevp⟩ := ih2 p hp'
          exact ⟨ev, List.mem_cons_of_mem _ hev, hevp⟩
      · intro p hp e hbe hnself
        rcases List.mem_cons.mp hp with rfl | hp'
        · exact absurd hself hnself
        · exact List.mem_cons_of_mem _ (ih3 p hp' e hbe hnself)
    · cases hb : env.behavior q with
      | newClientError e =>
        rw [hb] at hq
        simp [PeerBehavior.isClientError] at hq
      | syncError e =>
        rw [show runSyncLoop cfg env (q :: rest)
            = (SyncEvent.clientCreated q :: SyncEvent.syncFailed q e :: evs, ok)
            from by simp [runSyncLoop, hself, hb, hrest]]
        refine ⟨ih1, ?_, ?_⟩
        · intro p hp
          rcases List.mem_cons.mp hp with rfl | hp'
          · exact ⟨SyncEvent.syncFailed p e, by simp, rfl⟩
          · obtain ⟨ev, hev, hevp⟩ := ih2 p hp'
            exact ⟨ev, by simp [hev], hevp⟩
        · intro p hp e' hbe hnself
          rcases List.mem_cons.mp hp with rfl | hp'
          · rw [hb] at hbe
            cases hbe
            simp
          · simp [ih3 p hp' e' hbe hnself]
      | syncOk r =>
        have hnp : ¬(cfg.playMp3 = true ∧ env.playbackFatal q = true) :=
          hplay q (List.mem_cons_self q rest)
        rw [show runSyncLoop cfg env (q :: rest)
            = (SyncEvent.clientCreated q :: SyncEvent.synced q :: evs, ok)
            from by simp [runSyncLoop, hself, hb, hrest, hnp]]
        refine ⟨ih1, ?_, ?_⟩
        · intro p hp
          rcases List.mem_cons.mp hp with rfl | hp'
          · exact ⟨SyncEvent.synced p, by simp, rfl⟩
          · obtain ⟨ev, hev, hevp⟩ := ih2 p hp'
            exact ⟨ev, by simp [hev], hevp⟩
        · intro p hp e' hbe hnself
          rcases List.mem_cons.mp hp with rfl | hp'
          · rw [hb] at hbe
            cases hbe
          · simp [ih3 p hp' e' hbe hnself]

/-- C6 witness: with `peer1`'s SyncFromPeer failing on a bad publication and
`peer2` healthy, the loop completes, reaches both peers, and records
`peer1`'s failure. -/
theorem C6_witness :
    (runSyncLoop cfgSync syncEnvB [peer1, peer2]).2 = true ∧
      (∀ p ∈ [peer1, peer2],
        ∃ ev ∈ (runSyncLoop cfgSync syncEnvB [peer1, peer2]).1,
          ev.peerOf = p) ∧
      (∀ p ∈ [peer1, peer2], ∀ e, syncEnvB.behavior p = .syncError e →
        ¬(p.pubkey = cfgSync.pubkey ∧ p.host = cfgSync.restHost) →
        SyncEvent.syncFailed p e
          ∈ (runSyncLoop cfgSync syncEnvB [peer1, peer2]).1) :=
  C6_amended_sync_failures_isolated cfgSync syncEnvB [peer1, peer2]
    (by decide) (by decide)

/-- C7: a stored peer entry whose pubkey equals this node's own configured
pubkey and whose host equals this node's own RestHost is skipped by the sync
loop (austk.go lines 134-137): no client connection to it is ever created, so
it is never queried. -/
theorem C7_self_peer_never_queried (cfg : Config) (env : SyncEnv)
    (peers : List Peer) (p : Peer)
    (hpk : p.pubkey = cfg.pubkey) (hhost : p.host = cfg.restHost) :
    SyncEvent.clientCreated p ∉ (runSyncLoop cfg env peers).1 := by
  induction peers with
  | nil => simp [runSyncLoop]
  | cons q rest ih =>
    rcases hrest : runSyncLoop cfg env rest with ⟨evs, ok⟩
    rw [hrest] at ih
    by_cases hself : q.pubkey = cfg.pubkey ∧ q.host = cfg.restHost
    · simp [runSyncLoop, hself, hrest, ih]
    · have hpq : p ≠ q := fun h => hself (h ▸ ⟨hpk, hhost⟩)
      cases hb : env.behavior q with
      | newClientError e => simp [runSyncLoop, hself, hb, hpq]
      | syncError e => simp [runSyncLoop, hself, hb, hrest, hpq, ih]
      | syncOk r =>
        by_cases hplay : cfg.playMp3 = true ∧ env.playbackFatal q = true
        · simp [runSyncLoop, hself, hb, hplay, hpq]
        · simp [runSyncLoop, hself, hb, hplay, hrest, hpq, ih]

/-- C7 witness: the concrete self-matching peer entry is never queried in a
run over a peer list containing it. -/
theorem C7_witness :
    SyncEvent.clientCreated selfPeer
      ∉ (runSyncLoop cfgSync syncEnvA [selfPeer, peer2]).1 :=
  C7_self_peer_never_queried cfgSync syncEnvA [selfPeer, peer2] selfPeer rfl rfl

/-- C8: a run of `storeMp3File` on a file with album tags in which the
Content Store's `StoreAlbum` fails while every other operation succeeds: the
failing `StoreAlbum` call is made, yet `storeMp3File` returns success with no
error — the source assigns the `StoreAlbum` error to `err` without checking
it (austk.go line 242), so this Content Store failure is silently swallowed
instead of propagated. -/
theorem C8_album_store_failure_swallowed :
    StoreCall.storeAlbum ⟨"aliceinchains", "dirt", "Dirt", []⟩
        (some (GoError.msg "db down"))
      ∈ (storeMp3File cfgSync dirtWould albumFailingStore).1 ∧
    (storeMp3File cfgSync dirtWould albumFailingStore).2
      = (some dirtWould, none) := by decide

/-- Helper: any `StoreTrack` call recorded by `storeTrackAndPublish` is
either one of the calls already made or the call on the track built from the
derived ids. -/
theorem storeTrack_mem_storeTrackAndPublish (mp3 : Mp3File)
    (store : StoreBackend) (calls1 : List StoreCall)
    (artistID artistAlbumID artistTrackID : String)
    (t : Track) (r : Option GoError)
    (hmem : StoreCall.storeTrack t r ∈ (storeTrackAndPublish mp3 store calls1
      artistID artistAlbumID artistTrackID).1) :
    StoreCall.storeTrack t r ∈ calls1 ∨
      t = ⟨artistID, artistAlbumID, artistTrackID, 0, mp3.title⟩ := by
  unfold storeTrackAndPublish at hmem
  dsimp only at hmem
  rcases hT : store.storeTrackResult
      ⟨artistID, artistAlbumID, artistTrackID, 0, mp3.title⟩ with _ | e <;>
    simp only [hT] at hmem
  · rcases hR : store.readBytesResult with e | payload <;>
      simp only [hR] at hmem
    · simp at hmem; tauto
    · rcases hP : store.storeTrackPayloadResult
          ⟨artistID, artistAlbumID, artistTrackID, 0, mp3.title⟩ payload
          with _ | e <;> simp only [hP] at hmem
      · rcases hC : store.collectResourcesResult with e | resources <;>
          simp only [hC] at hmem
        · simp at hmem; tauto
        · rcases hS : store.signResult resources with e | publication <;>
            simp only [hS] at hmem
          · simp at hmem; tauto
          · rcases hPub : store.storePublicationResult publication
                with _ | e <;> simp only [hPub] at hmem
            · simp at hmem; tauto
            · simp at hmem; tauto
      · simp at hmem; tauto
  · simp at hmem; tauto

/-- C9: every track handed to `StoreTrack` by `storeMp3File` carries the
content address derived from the file's tags: its artist id is the artist
name's slug and, when the tags name an album, its track id is the album slug
joined with the track-title slug by the path separator while its album id is
the album slug; with no album, the album id is empty and the track id is the
track-title slug alone (austk.go lines 232-264). The ids are functions of
the titles, so re-deriving them from the same titles is deterministic. -/
theorem C9_track_id_derivation (cfg : Config) (mp3 : Mp3File)
    (store : StoreBackend) (t : Track) (r : Option GoError)
    (hmem : StoreCall.storeTrack t r ∈ (storeMp3File cfg mp3 store).1) :
    t.artistId = NameToID mp3.artistName ∧ t.title = mp3.title ∧
    (∀ albumTitle, mp3.album = some albumTitle →
      t.artistAlbumId = TitleToHierarchy albumTitle ∧
      t.artistTrackId
        = pathJoin (TitleToHierarchy albumTitle) (NameToID mp3.title)) ∧
    (mp3.album = none →
      t.artistAlbumId = "" ∧ t.artistTrackId = NameToID mp3.title) := by
  unfold storeMp3File at hmem
  rcases hA : store.artistResult with ⟨artistOpt, lookupErr⟩
  rw [hA] at hmem
  dsimp only at hmem
  by_cases hL : lookupErr ≠ none ∧ lookupErr ≠ some GoError.artNotFound
  · rw [if_pos hL] at hmem
    simp at hmem
  · rw [if_neg hL] at hmem
    have main : ∀ calls0 : List StoreCall,
        (∀ t' r', StoreCall.storeTrack t' r' ∉ calls0) →
        StoreCall.storeTrack t r ∈
          (storeTrackAndPublish mp3 store
            (match mp3.album with
              | some _ => calls0 ++ [StoreCall.storeAlbum
                  ⟨NameToID mp3.artistName, TitleToHierarchy (mp3.album.getD ""),
                    mp3.album.getD "", []⟩
                  (store.storeAlbumResult
                    ⟨NameToID mp3.artistName, TitleToHierarchy (mp3.album.getD ""),
                      mp3.album.getD "", []⟩)]
              | none => calls0)
            (NameToID mp3.artistName)
            (match mp3.album with
              | some albumTitle => TitleToHierarchy albumTitle
              | none => "")
            (match mp3.album with
              | some albumTitle =>
                pathJoin (TitleToHierarchy albumTitle) (NameToID mp3.title)
              | none => NameToID mp3.title)).1 →
        t.artistId = NameToID mp3.artistName ∧ t.title = mp3.title ∧
        (∀ albumTitle, mp3.album = some albumTitle →
          t.artistAlbumId = TitleToHierarchy albumTitle ∧
          t.artistTrackId
            = pathJoin (TitleToHierarchy albumTitle) (NameToID mp3.title)) ∧
        (mp3.album = none →
          t.artistAlbumId = "" ∧ t.artistTrackId = NameToID mp3.title) := by
      intro calls0 hc0 hm
      rcases hAl : mp3.album with _ | albumTitle <;> rw [hAl] at hm <;>
        rcases storeTrack_mem_storeTrackAndPublish mp3 store _ _ _ _ t r hm with
          hin | rfl
      · exact absurd hin (hc0 t r)
      · simp [hAl]
      · rcases List.mem_append.mp hin with hin' | hin'
        · exact absurd hin' (hc0 t r)
        · simp at hin'
      · simp [hAl]
    rcases artistOpt with _ | a
    · by_cases hid : NameToID mp3.artistName = cfg.artistId
      · simp only [if_pos hid] at hmem
        rcases hset : store.setArtistPubkeyResult with _ | e <;>
          simp only [hset] at hmem
        · exact main _ (by simp) hmem
        · simp at hmem
      · simp only [if_neg hid] at hmem
        rcases hsa : store.storeArtistResult with _ | e <;>
          simp only [hsa] at hmem
        · exact main _ (by simp) hmem
        · simp at hmem
    · exact main _ (by simp) hmem

/-- C9 witness: ingesting the file tagged artist "Alice in Chains", track
"Would?", album "Dirt" stores the track addressed
`("aliceinchains", "dirt", "dirt/would")`. -/
theorem C9_witness :
    (⟨"aliceinchains", "dirt", "dirt/would", 0, "Would?"⟩ : Track).artistId
        = NameToID dirtWould.artistName ∧
    (⟨"aliceinchains", "dirt", "dirt/would", 0, "Would?"⟩ : Track).title
        = dirtWould.title ∧
    (∀ albumTitle, dirtWould.album = some albumTitle →
      (⟨"aliceinchains", "dirt", "dirt/would", 0, "Would?"⟩ : Track).artistAlbumId
          = TitleToHierarchy albumTitle ∧
      (⟨"aliceinchains", "dirt", "dirt/would", 0, "Would?"⟩ : Track).artistTrackId
          = pathJoin (TitleToHierarchy albumTitle) (NameToID dirtWould.title)) ∧
    (dirtWould.album = none →
      (⟨"aliceinchains", "dirt", "dirt/would", 0, "Would?"⟩ : Track).artistAlbumId
          = "" ∧
      (⟨"aliceinchains", "dirt", "dirt/would", 0, "Would?"⟩ : Track).artistTrackId
          = NameToID dirtWould.title) :=
  C9_track_id_derivation cfgSync dirtWould happyStore
    ⟨"aliceinchains", "dirt", "dirt/would", 0, "Would?"⟩ none (by decide)

/-- C10: when `injectPublisher` fails and neither an mp3 add nor daemon mode
is configured, `main` continues past the failure (it does not exit) and still
invokes `Artist()` on the returned server value: the call crashes exactly
when the returned server is nil, so the returned server must be non-nil for
this call to be safe (austk.go lines 72-81). -/
theorem C10_inject_failure_still_dereferences (cfg : Config)
    (serverOpt : Option AustkServer) (e : GoError)
    (hadd : cfg.addMp3Filename = "") (hdaemon : cfg.runAsDaemon = false) :
    mainAfterInject cfg (serverOpt, some e) ≠ .fatalExit ∧
      (serverOpt = none →
        mainAfterInject cfg (serverOpt, some e) = .nilDereference) ∧
      (∀ s, serverOpt = some s →
        mainAfterInject cfg (serverOpt, some e) = .continued s.artist) := by
  rcases serverOpt with _ | s <;> simp [mainAfterInject, hadd, hdaemon]

/-- C10 witness: with no mp3 add and no daemon mode configured, an inject
failure that returns a nil server leads to the nil dereference outcome. -/
theorem C10_witness :
    mainAfterInject cfgSync (none, some (GoError.msg "no lnd")) ≠ .fatalExit ∧
      ((none : Option AustkServer) = none →
        mainAfterInject cfgSync (none, some (GoError.msg "no lnd"))
          = .nilDereference) ∧
      (∀ s, (none : Option AustkServer) = some s →
        mainAfterInject cfgSync (none, some (GoError.msg "no lnd"))
          = .continued s.artist) :=
  C10_inject_failure_still_dereferences cfgSync none (GoError.msg "no lnd")
    rfl rfl

end Audiostrike
